import Mathlib

/-!
Verification of the GlobeLingo language-exchange platform (business layer
`business.js`, persistence layer `persistence.js`, presentation routes).
JavaScript strings are embedded as lists of natural-number character codes
(`List Nat`); user-facing message strings, emails and opaque keys, which are
only ever compared for equality, are embedded as Lean `String`s.  Databases
are lists of documents; `findOne` is `List.find?` (first match in insertion
order) and `updateOne` updates the first matching document.
-/

set_option maxRecDepth 1000000

namespace GlobeLingo

/-- JavaScript `String.prototype.split(c)` on a single-character separator,
over byte lists: splits at every occurrence of `c`. -/
def splitOnChar (c : Nat) : List Nat → List (List Nat)
  | [] => [[]]
  | x :: xs =>
    match splitOnChar c xs with
    | [] => [[x]]
    | y :: ys => if x = c then [] :: y :: ys else (x :: y) :: ys

/-- Lowercase hexadecimal digit character code for `n % 16`
(as produced by Node's `Buffer.toString('hex')` and `Hash.digest('hex')`). -/
def hexDigit (n : Nat) : Nat :=
  let m := n % 16
  if m < 10 then 48 + m else 87 + m

/-- Hex encoding of a byte list: two lowercase hex digits per byte. -/
def hexEncode (bytes : List Nat) : List Nat :=
  bytes.flatMap (fun b => [hexDigit (b / 16), hexDigit b])

/-! ### SHA-1 (the `crypto.createHash('sha1')` primitive used by the code)

A direct executable implementation of FIPS 180-1 SHA-1 over byte lists,
with 32-bit words as `Nat` reduced `% 2^32`. -/

/-- Left-rotate a 32-bit word by `s` bits. -/
def rotl (s x : Nat) : Nat :=
  ((x <<< s) % 4294967296) ||| (x >>> (32 - s))

/-- Big-endian 32-bit words from a byte list (groups of 4). -/
def toWords : List Nat → List Nat
  | b0 :: b1 :: b2 :: b3 :: rest =>
    (((b0 * 256 + b1) * 256 + b2) * 256 + b3) :: toWords rest
  | _ => []

/-- Big-endian byte list (4 bytes) of a 32-bit word. -/
def wordBytes (w : Nat) : List Nat :=
  [w / 16777216 % 256, w / 65536 % 256, w / 256 % 256, w % 256]

/-- Extend the 16 message-schedule words to 80 (`fuel` = words still to add). -/
def extendWords : Nat → List Nat → List Nat
  | 0, ws => ws
  | fuel + 1, ws =>
    let n := ws.length
    let w := rotl 1 ((ws.getD (n - 3) 0) ^^^ (ws.getD (n - 8) 0) ^^^
                     (ws.getD (n - 14) 0) ^^^ (ws.getD (n - 16) 0))
    extendWords fuel (ws ++ [w])

/-- Round function and constant for SHA-1 round `i`. -/
def roundFK (i b c d : Nat) : Nat × Nat :=
  if i < 20 then ((b &&& c) ||| ((b ^^^ 4294967295) &&& d), 1518500249)
  else if i < 40 then (b ^^^ c ^^^ d, 1859775393)
  else if i < 60 then ((b &&& c) ||| (b &&& d) ||| (c &&& d), 2400959708)
  else (b ^^^ c ^^^ d, 3395469782)

/-- The 80 SHA-1 rounds (`fuel` counts rounds remaining, `i` the round index). -/
def sha1Rounds : Nat → Nat → List Nat → Nat × Nat × Nat × Nat × Nat →
    Nat × Nat × Nat × Nat × Nat
  | 0, _, _, st => st
  | fuel + 1, i, ws, (a, b, c, d, e) =>
    let fk := roundFK i b c d
    let temp := (rotl 5 a + fk.1 + e + fk.2 + ws.getD i 0) % 4294967296
    sha1Rounds fuel (i + 1) ws (temp, a, rotl 30 b, c, d)

/-- Process one 64-byte block, updating the five-word hash state. -/
def sha1Block (h : Nat × Nat × Nat × Nat × Nat) (block : List Nat) :
    Nat × Nat × Nat × Nat × Nat :=
  let ws := extendWords 64 (toWords block)
  match h, sha1Rounds 80 0 ws h with
  | (h0, h1, h2, h3, h4), (a, b, c, d, e) =>
    ((h0 + a) % 4294967296, (h1 + b) % 4294967296, (h2 + c) % 4294967296,
     (h3 + d) % 4294967296, (h4 + e) % 4294967296)

/-- Split a byte list into 64-byte blocks (`fuel`-driven recursion). -/
def toBlocks : Nat → List Nat → List (List Nat)
  | 0, _ => []
  | _, [] => []
  | fuel + 1, l => l.take 64 :: toBlocks fuel (l.drop 64)

/-- SHA-1 digest (20 bytes) of a byte-list message. -/
def sha1 (msg : List Nat) : List Nat :=
  let ml := msg.length * 8
  let padLen := (64 - ((msg.length + 9) % 64)) % 64
  let lenBytes := [ml / 72057594037927936 % 256, ml / 281474976710656 % 256,
                   ml / 1099511627776 % 256, ml / 4294967296 % 256,
                   ml / 16777216 % 256, ml / 65536 % 256, ml / 256 % 256, ml % 256]
  let padded := msg ++ 128 :: (List.replicate padLen 0 ++ lenBytes)
  let blocks := toBlocks padded.length padded
  match blocks.foldl sha1Block (1732584193, 4023233417, 2562383102, 271733878, 3285377520) with
  | (h0, h1, h2, h3, h4) =>
    wordBytes h0 ++ wordBytes h1 ++ wordBytes h2 ++ wordBytes h3 ++ wordBytes h4

/-- `crypto.createHash('sha1').update(m).digest('hex')`: lowercase hex digest. -/
def sha1hex (msg : List Nat) : List Nat :=
  hexEncode (sha1 msg)

/-! ### Credential hashing (`business.js` `createSaltedHash` / the hash check
inside `checkLogin`)

`createSaltedHash` draws 4 random bytes; the randomness is externalized as the
`saltBytes` argument (`crypto.randomBytes(4)`). -/

/-- `business.js` `createSaltedHash`: hex-encode the 4 random salt bytes,
SHA-1 the concatenation `salt + password`, return `salt ++ ":" ++ hexDigest`
(`58` is the code of `:`). -/
def createSaltedHash (saltBytes : List Nat) (password : List Nat) : List Nat :=
  let salt := hexEncode saltBytes
  let hash := sha1hex (salt ++ password)
  salt ++ 58 :: hash

/-- The verification steps of `business.js` `checkLogin` (lines 272-277):
`const [storedSalt, storedHash] = stored.split(':')`, recompute
`sha1hex(storedSalt + password)` and compare with `===` (comparison with a
missing second component, JS `undefined`, is `false`). -/
def verifySaltedHash (stored password : List Nat) : Bool :=
  let parts := splitOnChar 58 stored
  let storedSalt := parts.headD []
  let inputHash := sha1hex (storedSalt ++ password)
  match parts[1]? with
  | some storedHash => inputHash = storedHash
  | none => false

/-! ### Data model

One user document (`users` collection).  Fields not consulted by any verified
operation (`knownLanguages`, `learningLanguages`, `profilePicturePath`) are
omitted.  Optional embedded objects are `Option`. -/

/-- An embedded time-boxed key object `{value, expiry}` (`persistence.js`
`storeKey`); `expiry` is a millisecond timestamp. -/
structure KeyObject where
  value : String
  expiry : Nat
  deriving DecidableEq, Repr

/-- An awarded badge embedded in a user document: a catalog badge plus the
award `timestamp` (`persistence.js` `awardBadge`). -/
structure AwardedBadge where
  name : String
  imageUrl : String
  timestamp : Nat
  deriving DecidableEq, Repr

/-- A user document. -/
structure User where
  id : Nat
  username : String
  email : String
  password : List Nat
  isVerified : Bool
  verificationKey : Option KeyObject := none
  resetKey : Option KeyObject := none
  contacts : List Nat := []
  blockedContacts : List Nat := []
  badges : List AwardedBadge := []
  deriving DecidableEq, Repr

/-- The two key types used with `persistence.js` `storeKey`/`getUserByKey`
(the JS code interpolates the field name as `` `${type}Key` ``). -/
inductive KeyType where
  | verification
  | reset
  deriving DecidableEq, Repr

/-- Read the embedded key field selected by `type`. -/
def User.keyField (u : User) : KeyType → Option KeyObject
  | .verification => u.verificationKey
  | .reset => u.resetKey

/-- Write the embedded key field selected by `type`. -/
def User.setKeyField (u : User) : KeyType → Option KeyObject → User
  | .verification, k => { u with verificationKey := k }
  | .reset, k => { u with resetKey := k }

/-- MongoDB `updateOne`: apply `f` to the first document satisfying `p`,
leaving everything else untouched (no-op when nothing matches). -/
def updateFirst {α : Type} (p : α → Bool) (f : α → α) : List α → List α
  | [] => []
  | u :: us => if p u then f u :: us else u :: updateFirst p f us

/-! ### Persistence-layer user operations -/

/-- `persistence.js` `getUserByEmail`: `users.findOne({email})`. -/
def getUserByEmail (db : List User) (email : String) : Option User :=
  db.find? (fun u => u.email == email)

/-- `persistence.js` `storeKey`: compute `expiry = now + 5*60*1000` and
`$set` the embedded `{value, expiry}` object under the `type` key field on
the first user matching `email`. -/
def storeKey (db : List User) (now : Nat) (email : String) (key : String)
    (ty : KeyType) : List User :=
  let expiry := now + 5 * 60 * 1000
  updateFirst (fun u => u.email == email)
    (fun u => u.setKeyField ty (some ⟨key, expiry⟩)) db

/-- `persistence.js` `getUserByKey`: `findOne({[type + "Key.value"]: key})`,
then return the user only if the embedded key's `expiry > now`, else `null`. -/
def getUserByKey (db : List User) (now : Nat) (key : String) (ty : KeyType) :
    Option User :=
  match db.find? (fun u => match u.keyField ty with
                           | some k => k.value == key
                           | none => false) with
  | none => none
  | some u =>
    match u.keyField ty with
    | some k => if now < k.expiry then some u else none
    | none => none

/-- `persistence.js` `clearKey`: `$unset` the embedded `type` key field on the
first user matching `email`. -/
def clearKey (db : List User) (email : String) (ty : KeyType) : List User :=
  updateFirst (fun u => u.email == email) (fun u => u.setKeyField ty none) db

/-- `persistence.js` `updatePassword`: `$set {password}` on the first user
matching `email`. -/
def updatePassword (db : List User) (email : String) (newPassword : List Nat) :
    List User :=
  updateFirst (fun u => u.email == email)
    (fun u => { u with password := newPassword }) db

/-! ### Login (`business.js` `checkLogin`) -/

/-- The result object of `checkLogin`: `{isValid, message, userId?}`. -/
structure LoginResult where
  isValid : Bool
  message : String
  userId : Option Nat := none
  deriving DecidableEq, Repr

/-- The literal `"Invalid email or password."` used both when no user matches
the email and when the recomputed digest mismatches. -/
def invalidCredentialsMsg : String := "Invalid email or password."

/-- The literal not-verified message of `checkLogin`. -/
def notVerifiedMsg : String :=
  "Email is not verified. Please verify your email before logging in."

/-- `business.js` `checkLogin` (lines 264-282). -/
def checkLogin (db : List User) (email : String) (password : List Nat) :
    LoginResult :=
  match getUserByEmail db email with
  | none => ⟨false, invalidCredentialsMsg, none⟩
  | some user =>
    if !user.isVerified then ⟨false, notVerifiedMsg, none⟩
    else
      let parts := splitOnChar 58 user.password
      let storedSalt := parts.headD []
      let inputHash := sha1hex (storedSalt ++ password)
      match parts[1]? with
      | some storedHash =>
        if inputHash = storedHash then
          ⟨true, "Login successful.", some user.id⟩
        else ⟨false, invalidCredentialsMsg, none⟩
      | none => ⟨false, invalidCredentialsMsg, none⟩

/-! ### Sessions (`business.js` `startSession`, `generateFormToken`,
`cancelToken`; `persistence.js` `saveSession`, `getSession`, `updateSession`)

JS session `data` is a plain object whose fields can be absent (`delete`),
so it is embedded as a record of `Option` fields; the object spread
`{...old, ...new}` in `updateSession` becomes a field-wise "new if present,
else old" merge. -/

/-- The session `data` object: `{userId}` plus a transient `csrfToken`. -/
structure SessionData where
  userId : Option String := none
  csrfToken : Option String := none
  deriving DecidableEq, Repr

/-- A document in the `sessions` collection: `{sessionKey, expiry, data}`. -/
structure Session where
  sessionKey : String
  expiry : Nat
  data : SessionData
  deriving DecidableEq, Repr

/-- JS object spread `{...old, ...new}`: keys present in `new` win, keys
absent in `new` (e.g. deleted ones) fall back to `old`. -/
def mergeData (old new : SessionData) : SessionData :=
  ⟨new.userId.or old.userId, new.csrfToken.or old.csrfToken⟩

/-- `business.js` `startSession`: build `{sessionKey, expiry: now + 10*60*1000,
data: {userId}}`, `saveSession` (an insert), and return the key.  The random
`crypto.randomUUID()` is externalized as `key`. -/
def startSession (db : List Session) (now : Nat) (userId : String)
    (key : String) : String × List Session :=
  let session : Session := ⟨key, now + 10 * 60 * 1000, { userId := some userId }⟩
  (key, db ++ [session])

/-- `persistence.js` `getSession`: `findOne({sessionKey})`; `null` when
missing; `null` when `expiry < now`; otherwise the session's `data`. -/
def getSession (db : List Session) (key : String) (now : Nat) :
    Option SessionData :=
  match db.find? (fun s => s.sessionKey == key) with
  | none => none
  | some s => if s.expiry < now then none else some s.data

/-- `persistence.js` `updateSession`: `findOne({sessionKey})`, merge the given
data over the stored `data` with object spread, `$set {data: merged}` on the
first matching session.  (When no session matches, the JS code throws a
`TypeError` on `session.data` inside its `try` and is caught: no update.  The
later `result.modifiedCount` read raises a caught `ReferenceError` after the
update has already been applied, so it does not affect the stored state.) -/
def updateSession (db : List Session) (key : String) (data : SessionData) :
    List Session :=
  match db.find? (fun s => s.sessionKey == key) with
  | none => db
  | some s =>
    let updatedData := mergeData s.data data
    updateFirst (fun t => t.sessionKey == key)
      (fun t => { t with data := updatedData }) db

/-- `business.js` `generateFormToken`: load the session data, set
`csrfToken = token` on it, persist via `updateSession`, return the token.
The random token is externalized as `token`.  (When `getSession` yields
`null` the JS code throws on the field assignment; no update happens.) -/
def generateFormToken (db : List Session) (key : String) (now : Nat)
    (token : String) : Option String × List Session :=
  match getSession db key now with
  | none => (none, db)
  | some d => (some token, updateSession db key { d with csrfToken := some token })

/-- `business.js` `cancelToken`: load the session data, `delete` its
`csrfToken` field, persist via `updateSession`. -/
def cancelToken (db : List Session) (key : String) (now : Nat) : List Session :=
  match getSession db key now with
  | none => db
  | some d => updateSession db key { d with csrfToken := none }

/-! ### Password validation and reset (`business.js` `validatePassword`,
`resetPassword`) -/

/-- Characters JS `.` (dot, no `s` flag) does not match: `\n`, `\r`,
U+2028, U+2029. -/
def isLineTerminator (c : Nat) : Bool :=
  c == 10 || c == 13 || c == 8232 || c == 8233

/-- `/^.{8,}$/.test(p)`: the whole string is at least 8 characters, all of
them matched by `.` (so none a line terminator). -/
def lengthRegexTest (p : List Nat) : Bool :=
  decide (8 ≤ p.length) && p.all (fun c => !isLineTerminator c)

/-- `/[0-9]/` character test. -/
def isDigitChar (c : Nat) : Bool := 48 ≤ c && c ≤ 57

/-- the `/[!@#$%^&*(),.?":{}|<>]/` character class. -/
def isSpecialChar (c : Nat) : Bool :=
  c == 33 || c == 64 || c == 35 || c == 36 || c == 37 || c == 94 || c == 38 ||
  c == 42 || c == 40 || c == 41 || c == 44 || c == 46 || c == 63 || c == 34 ||
  c == 58 || c == 123 || c == 125 || c == 124 || c == 60 || c == 62

/-- `/[A-Z]/` character test. -/
def isUpperChar (c : Nat) : Bool := 65 ≤ c && c ≤ 90

/-- `/[a-z]/` character test. -/
def isLowerChar (c : Nat) : Bool := 97 ≤ c && c ≤ 122

/-- `business.js` `validatePassword` (lines 98-112): conjunction of the five
regex tests. -/
def validatePassword (password : List Nat) : Bool :=
  lengthRegexTest password &&
  password.any isDigitChar &&
  password.any isSpecialChar &&
  password.any isUpperChar &&
  password.any isLowerChar

/-- JS whitespace for `String.prototype.trim` (WhiteSpace ∪ LineTerminator). -/
def isTrimChar (c : Nat) : Bool :=
  c == 9 || c == 10 || c == 11 || c == 12 || c == 13 || c == 32 || c == 160 ||
  c == 5760 || (8192 ≤ c && c ≤ 8202) || c == 8232 || c == 8233 || c == 8239 ||
  c == 8287 || c == 12288 || c == 65279

/-- `String.prototype.trim`: drop leading and trailing whitespace. -/
def trim (s : List Nat) : List Nat :=
  (s.dropWhile isTrimChar).reverse.dropWhile isTrimChar |>.reverse

/-- The result object `{isValid, message?}` of `resetPassword`. -/
structure ResetResult where
  isValid : Bool
  message : Option String := none
  deriving DecidableEq, Repr

/-- `resetPassword`'s weak-password message literal. -/
def weakPasswordMsg : String :=
  "Password must be at least 8 characters, include a number, a special character, an uppercase and lowercase letter."

/-- `resetPassword`'s mismatch message literal. -/
def passwordMismatchMsg : String :=
  "The passwords you entered do not match. Please ensure both password fields are the same."

/-- `resetPassword`'s invalid-or-expired-key message literal. -/
def invalidResetKeyMsg : String :=
  "Your reset link is invalid or has expired. Please request a new link."

/-- `business.js` `resetPassword` (lines 400-415), returning the result object
together with the resulting `users` collection.  The random salt of the new
hash is externalized as `saltBytes`. -/
def resetPassword (db : List User) (now : Nat) (saltBytes : List Nat)
    (resetKey : String) (newPassword confirmedPassword : List Nat) :
    ResetResult × List User :=
  if !validatePassword newPassword then
    (⟨false, some weakPasswordMsg⟩, db)
  else if trim newPassword ≠ trim confirmedPassword then
    (⟨false, some passwordMismatchMsg⟩, db)
  else
    match getUserByKey db now resetKey .reset with
    | none => (⟨false, some invalidResetKeyMsg⟩, db)
    | some user =>
      let saltedHash := createSaltedHash saltBytes newPassword
      let db1 := updatePassword db user.email saltedHash
      let db2 := clearKey db1 user.email .reset
      (⟨true, none⟩, db2)

/-! ### Messaging and badges (`persistence.js` `getConversation`,
`getUserMessages`, `awardBadge`; `business.js` `hasReceivedReply`,
`awardBadge`; the `POST /conversation/:receiverId` route) -/

/-- A document in the `messages` collection. -/
structure Msg where
  senderId : Nat
  receiverId : Nat
  message : String
  timestamp : Nat
  deriving DecidableEq, Repr

/-- Insert into a list sorted ascending by `timestamp` (stable). -/
def insertByTime (m : Msg) : List Msg → List Msg
  | [] => [m]
  | x :: xs => if m.timestamp ≤ x.timestamp then m :: x :: xs
               else x :: insertByTime m xs

/-- Ascending stable sort by `timestamp` (the `sort({timestamp: 1})`). -/
def sortByTime : List Msg → List Msg
  | [] => []
  | x :: xs => insertByTime x (sortByTime xs)

/-- `persistence.js` `getConversation`: both directions between the two ids,
sorted ascending by timestamp. -/
def getConversation (msgs : List Msg) (userId1 userId2 : Nat) : List Msg :=
  sortByTime (msgs.filter (fun m =>
    (m.senderId == userId1 && m.receiverId == userId2) ||
    (m.senderId == userId2 && m.receiverId == userId1)))

/-- `persistence.js` `getUserMessages`: all messages with this sender. -/
def getUserMessages (msgs : List Msg) (userId : Nat) : List Msg :=
  msgs.filter (fun m => m.senderId == userId)

/-- The adjacent-pair scan of `business.js` `hasReceivedReply` (lines 551-569)
over the already-fetched conversation: some message sent `senderId →
receiverId` immediately followed by one sent `receiverId → senderId`.
(The `convo.length >= 2` guard is subsumed: with fewer than two messages no
adjacent pair exists.) -/
def hasReplyScan (senderId receiverId : Nat) : List Msg → Bool
  | m1 :: m2 :: rest =>
    (m1.senderId == senderId && m1.receiverId == receiverId &&
     m2.senderId == receiverId && m2.receiverId == senderId) ||
    hasReplyScan senderId receiverId (m2 :: rest)
  | _ => false

/-- `business.js` `hasReceivedReply`: fetch the conversation, scan it. -/
def hasReceivedReply (msgs : List Msg) (senderId receiverId : Nat) : Bool :=
  hasReplyScan senderId receiverId (getConversation msgs senderId receiverId)

/-- A `badges`-collection catalog document `{name, imageUrl}`. -/
structure Badge where
  name : String
  imageUrl : String
  deriving DecidableEq, Repr

/-- The two catalog entries seeded by `persistence.js` `initializeBadges`. -/
def seededCatalog : List Badge :=
  [⟨"First Conversation", "/images/badges/firstConversation.png"⟩,
   ⟨"100 Messages Sent", "/images/badges/Messages100.png"⟩]

/-- The `badgeRules` lookup of `business.js` `awardBadge`: known rule names
map to their condition, any other name (`badgeRules[badge.name]?.()` being
`undefined`) is falsy. -/
def badgeRule (msgs : List Msg) (senderId receiverId : Nat) (name : String) :
    Bool :=
  if name = "First Conversation" then hasReceivedReply msgs senderId receiverId
  else if name = "100 Messages Sent" then
    decide (100 ≤ (getUserMessages msgs senderId).length)
  else false

/-- The catalog loop of `business.js` `awardBadge` acting on the sender's
badge list (the only state it reads and writes): per catalog entry, re-read
the user's badges, skip when a badge of the same name is already held,
otherwise award (`persistence.js` `awardBadge` `$push`es the badge with the
current timestamp) when the rule fires.  `elig` is the rule evaluation and
`ts` the award timestamp. -/
def awardLoop (elig : String → Bool) (ts : Nat) :
    List Badge → List AwardedBadge → List AwardedBadge
  | [], userBadges => userBadges
  | b :: rest, userBadges =>
    if userBadges.any (fun x => x.name == b.name) then
      awardLoop elig ts rest userBadges
    else if elig b.name then
      awardLoop elig ts rest (userBadges ++ [⟨b.name, b.imageUrl, ts⟩])
    else
      awardLoop elig ts rest userBadges

/-- `business.js` `awardBadge(senderId, receiverId)` specialised to its effect
on the sender's badge list, with the message store `msgs` fixed for the pass
(messages are not modified while it runs). -/
def awardBadge (msgs : List Msg) (allBadges : List Badge) (ts : Nat)
    (senderId receiverId : Nat) (userBadges : List AwardedBadge) :
    List AwardedBadge :=
  awardLoop (badgeRule msgs senderId receiverId) ts allBadges userBadges

/-- The badge stage of the `POST /conversation/:receiverId` route:
`awardBadge(senderId, receiverId)` then `awardBadge(receiverId, senderId)`,
returning the two participants' resulting badge lists. -/
def dualAward (msgs : List Msg) (allBadges : List Badge) (ts : Nat)
    (senderId receiverId : Nat)
    (senderBadges receiverBadges : List AwardedBadge) :
    List AwardedBadge × List AwardedBadge :=
  (awardBadge msgs allBadges ts senderId receiverId senderBadges,
   awardBadge msgs allBadges ts receiverId senderId receiverBadges)

/-! ### Contacts -/

/-- MongoDB `$addToSet`: append unless already present. -/
def addToSet (x : Nat) (l : List Nat) : List Nat :=
  if x ∈ l then l else l ++ [x]

/-- `persistence.js` `addContact`: `$addToSet {contacts: contactId}` on the
user matched by id. -/
def addContact (db : List User) (userId contactId : Nat) : List User :=
  updateFirst (fun u => u.id == userId)
    (fun u => { u with contacts := addToSet contactId u.contacts }) db

/-- Modelled from the spec: the strict-iteration business-layer `addContact`
is not among the provided sources (the final `business.js` `addContact`
delegates to persistence with no block check); §4.2 "Contacts" describes it:
fetch the prospective contact's profile and, if the current user's id appears
in that target's `blockedContacts`, reject with a `BlockedByTarget` condition
before attempting the add.  The returned `Option String` is the rejection
condition (`none` = the add went through). -/
def addContactChecked (db : List User) (userId contactId : Nat) :
    Option String × List User :=
  match db.find? (fun u => u.id == contactId) with
  | none => (some "NotFound", db)
  | some target =>
    if userId ∈ target.blockedContacts then (some "BlockedByTarget", db)
    else (none, addContact db userId contactId)

/-! ### Concrete inputs used by witnesses -/

/-- A concrete user for the C2 witness: id 7, email `a@x.com`, password hash
of `"Abc1!xyz"` with salt `01020304`, verified or not per `v`. -/
def loginWitnessUser (v : Bool) : User :=
  ⟨7, "alice", "a@x.com",
   createSaltedHash [1, 2, 3, 4] [65, 98, 99, 49, 33, 120, 121, 122],
   v, none, none, [], [], []⟩

/-- A concrete user for the C7 witness: id 2, email `c@x.com`, holding an
unexpired reset key `"RK"`. -/
def resetWitnessUser : User :=
  ⟨2, "carol", "c@x.com", [], true, none, some ⟨"RK", 5000⟩, [], [], []⟩

/-- Number of badges carrying the given name in a badge list (the measure for
badge non-duplication). -/
def countName (l : List AwardedBadge) (name : String) : Nat :=
  (l.filter (fun b => b.name == name)).length

/-! ## Lemmas about splitting and hex encoding -/

theorem splitOnChar_ne_nil (c : Nat) (l : List Nat) : splitOnChar c l ≠ [] := by
  cases l with
  | nil => simp [splitOnChar]
  | cons x xs =>
    simp only [splitOnChar]
    cases h : splitOnChar c xs with
    | nil => simp
    | cons y ys =>
      by_cases hx : x = c <;> simp [hx]

theorem splitOnChar_of_not_mem {c : Nat} {l : List Nat} (h : c ∉ l) :
    splitOnChar c l = [l] := by
  induction l with
  | nil => rfl
  | cons x xs ih =>
    have hx : x ≠ c := fun he => h (he ▸ List.mem_cons_self x xs)
    have hxs : c ∉ xs := fun hm => h (List.mem_cons_of_mem x hm)
    simp only [splitOnChar, ih hxs]
    simp [hx]

theorem splitOnChar_append {c : Nat} {l : List Nat} (r : List Nat)
    (h : c ∉ l) : splitOnChar c (l ++ c :: r) = l :: splitOnChar c r := by
  induction l with
  | nil =>
    simp only [List.nil_append, splitOnChar]
    cases hr : splitOnChar c r with
    | nil => exact absurd hr (splitOnChar_ne_nil c r)
    | cons y ys => simp
  | cons x xs ih =>
    have hx : x ≠ c := fun he => h (he ▸ List.mem_cons_self x xs)
    have hxs : c ∉ xs := fun hm => h (List.mem_cons_of_mem x hm)
    simp only [List.cons_append, splitOnChar, List.append_eq]
    rw [ih hxs]
    simp [hx]

theorem hexDigit_ne_colon (n : Nat) : hexDigit n ≠ 58 := by
  simp only [hexDigit]
  split <;> omega

theorem colon_not_mem_hexEncode (l : List Nat) : 58 ∉ hexEncode l := by
  simp only [hexEncode, List.mem_flatMap]
  rintro ⟨b, -, hb⟩
  simp only [List.mem_cons, List.not_mem_nil, or_false] at hb
  rcases hb with h | h
  · exact hexDigit_ne_colon _ h.symm
  · exact hexDigit_ne_colon _ h.symm

theorem hexDigit_inj {a b : Nat} (h : hexDigit a = hexDigit b) :
    a % 16 = b % 16 := by
  simp only [hexDigit] at h
  split_ifs at h <;> omega

theorem hexEncode_inj : ∀ {s t : List Nat}, (∀ b ∈ s, b < 256) →
    (∀ b ∈ t, b < 256) → hexEncode s = hexEncode t → s = t
  | [], [], _, _, _ => rfl
  | [], b :: t, _, _, h => by simp [hexEncode] at h
  | a :: s, [], _, _, h => by simp [hexEncode] at h
  | a :: s, b :: t, hs, ht, h => by
    simp only [hexEncode, List.flatMap_cons, List.cons_append, List.nil_append,
      List.cons.injEq] at h
    obtain ⟨h1, h2, h3⟩ := h
    have ha : a < 256 := hs a (List.mem_cons_self a s)
    have hb : b < 256 := ht b (List.mem_cons_self b t)
    have e1 : a / 16 % 16 = b / 16 % 16 := hexDigit_inj h1
    have e2 : a % 16 = b % 16 := hexDigit_inj h2
    have hab : a = b := by omega
    have hrest : s = t :=
      hexEncode_inj (fun x hx => hs x (List.mem_cons_of_mem a hx))
        (fun x hx => ht x (List.mem_cons_of_mem b hx)) h3
    rw [hab, hrest]

/-- The salted-hash string splits back into its salt and digest. -/
theorem splitOnChar_createSaltedHash (saltBytes P : List Nat) :
    splitOnChar 58 (createSaltedHash saltBytes P) =
      [hexEncode saltBytes, sha1hex (hexEncode saltBytes ++ P)] := by
  simp only [createSaltedHash]
  rw [splitOnChar_append _ (colon_not_mem_hexEncode saltBytes),
    splitOnChar_of_not_mem
      (show (58 : Nat) ∉ sha1hex (hexEncode saltBytes ++ P) from
        colon_not_mem_hexEncode _)]

/-- C1.  Salted-hash round trip: verifying `P` against `createSaltedHash(P)`
succeeds (split on `:`, recompute SHA-1 of `storedSalt + P`, compare hex
digests); verifying `P ++ "x"` (`120` is `'x'`) against the same stored value
fails whenever the two SHA-1 hex digests differ (the only way it could succeed
is a SHA-1 collision between the two distinct preimages); and two calls with
distinct random salts produce different output strings. -/
theorem C1_salted_hash_round_trip (saltBytes saltBytes' P : List Nat)
    (hs : ∀ b ∈ saltBytes, b < 256) (hs' : ∀ b ∈ saltBytes', b < 256)
    (hdiff : sha1hex (hexEncode saltBytes ++ P ++ [120]) ≠
      sha1hex (hexEncode saltBytes ++ P))
    (hne : saltBytes ≠ saltBytes') :
    verifySaltedHash (createSaltedHash saltBytes P) P = true ∧
    verifySaltedHash (createSaltedHash saltBytes P) (P ++ [120]) = false ∧
    createSaltedHash saltBytes P ≠ createSaltedHash saltBytes' P := by
  refine ⟨?_, ?_, ?_⟩
  · simp [verifySaltedHash, splitOnChar_createSaltedHash]
  · simp only [verifySaltedHash, splitOnChar_createSaltedHash]
    simp only [List.headD_cons, List.getElem?_cons_succ, List.getElem?_cons_zero,
      decide_eq_false_iff_not]
    rw [← List.append_assoc]
    exact hdiff
  · intro heq
    have hsalt : hexEncode saltBytes = hexEncode saltBytes' := by
      have h1 := congrArg (fun l => (splitOnChar 58 l).headD []) heq
      simpa [splitOnChar_createSaltedHash] using h1
    exact hne (hexEncode_inj hs hs' hsalt)

/-- C1 witness: the round trip at salt `00000000`, second salt `00000001`,
password `"pw"` (`[112, 119]`); the digest-difference hypothesis is settled by
computing both SHA-1 digests. -/
theorem C1_salted_hash_round_trip_witness :
    verifySaltedHash (createSaltedHash [0, 0, 0, 0] [112, 119]) [112, 119] = true ∧
    verifySaltedHash (createSaltedHash [0, 0, 0, 0] [112, 119]) [112, 119, 120] = false ∧
    createSaltedHash [0, 0, 0, 0] [112, 119] ≠ createSaltedHash [0, 0, 0, 1] [112, 119] :=
  C1_salted_hash_round_trip [0, 0, 0, 0] [0, 0, 0, 1] [112, 119]
    (by decide) (by decide) (by decide) (by decide)

/-- C2.  Login gating: with no user for the email, `checkLogin` fails with the
invalid-credentials message; with a matched unverified user it fails with the
not-verified message; with a matched verified user it recomputes the salted
hash from the stored salt and succeeds with the user's id exactly on digest
match, and on mismatch fails with exactly the record (same message string) of
the no-such-email case. -/
theorem C2_login_gating (db : List User) (email : String) (password : List Nat) :
    (getUserByEmail db email = none →
      checkLogin db email password = ⟨false, invalidCredentialsMsg, none⟩) ∧
    (∀ u, getUserByEmail db email = some u → u.isVerified = false →
      checkLogin db email password = ⟨false, notVerifiedMsg, none⟩) ∧
    (∀ u, getUserByEmail db email = some u → u.isVerified = true →
      ((splitOnChar 58 u.password)[1]? =
          some (sha1hex ((splitOnChar 58 u.password).headD [] ++ password)) →
        checkLogin db email password = ⟨true, "Login successful.", some u.id⟩) ∧
      ((splitOnChar 58 u.password)[1]? ≠
          some (sha1hex ((splitOnChar 58 u.password).headD [] ++ password)) →
        checkLogin db email password = ⟨false, invalidCredentialsMsg, none⟩)) := by
  refine ⟨?_, ?_, ?_⟩
  · intro h
    simp [checkLogin, h]
  · intro u hu hv
    simp [checkLogin, hu, hv]
  · intro u hu hv
    constructor
    · intro hmatch
      simp [checkLogin, hu, hv, hmatch]
    · intro hmis
      cases hcase : (splitOnChar 58 u.password)[1]? with
      | none => simp [checkLogin, hu, hv, hcase]
      | some s =>
        rw [hcase] at hmis
        have hne : ¬sha1hex ((splitOnChar 58 u.password).headD [] ++ password) = s :=
          fun he => hmis (by rw [he])
        simp [checkLogin, hu, hv, hcase]
        simpa using hne

/-- C2 witness: the four branches at concrete databases — empty database, an
unverified user, and a verified user (id 7, salt `01020304`, password
`"Abc1!xyz"`) probed with the right and with a wrong password. -/
theorem C2_login_gating_witness :
    checkLogin [] "a@x.com" [112] = ⟨false, invalidCredentialsMsg, none⟩ ∧
    checkLogin [loginWitnessUser false] "a@x.com" [112] =
      ⟨false, notVerifiedMsg, none⟩ ∧
    checkLogin [loginWitnessUser true] "a@x.com"
        [65, 98, 99, 49, 33, 120, 121, 122] =
      ⟨true, "Login successful.", some 7⟩ ∧
    checkLogin [loginWitnessUser true] "a@x.com" [113] =
      ⟨false, invalidCredentialsMsg, none⟩ := by
  refine ⟨(C2_login_gating [] "a@x.com" [112]).1 (by decide), ?_, ?_, ?_⟩
  · exact (C2_login_gating [loginWitnessUser false] "a@x.com" [112]).2.1
      (loginWitnessUser false) (by decide) (by decide)
  · exact ((C2_login_gating [loginWitnessUser true] "a@x.com"
      [65, 98, 99, 49, 33, 120, 121, 122]).2.2
      (loginWitnessUser true) (by decide) (by decide)).1 (by decide)
  · exact ((C2_login_gating [loginWitnessUser true] "a@x.com" [113]).2.2
      (loginWitnessUser true) (by decide) (by decide)).2 (by decide)

/-! ## Lemmas about `updateFirst` and the key fields -/

theorem keyField_setKeyField (u : User) (ty : KeyType) (k : Option KeyObject) :
    (u.setKeyField ty k).keyField ty = k := by
  cases ty <;> rfl

theorem email_setKeyField (u : User) (ty : KeyType) (k : Option KeyObject) :
    (u.setKeyField ty k).email = u.email := by
  cases ty <;> rfl

theorem find?_updateFirst {α : Type} (p : α → Bool) (f : α → α)
    (hpf : ∀ x, p (f x) = p x) :
    ∀ l : List α, (updateFirst p f l).find? p = (l.find? p).map f := by
  intro l
  induction l with
  | nil => rfl
  | cons x xs ih =>
    by_cases hx : p x
    · simp [updateFirst, hx, List.find?_cons, hpf]
    · simp only [updateFirst, hx, if_false, Bool.false_eq_true]
      rw [List.find?_cons_of_neg _ (by simp [hx]),
        List.find?_cons_of_neg _ (by simp [hx]), ih]

/-- After `storeKey`, looking up by the (fresh) key value finds exactly the
updated user. -/
theorem find?_keyValue_storeKey (db : List User) (email key : String)
    (ty : KeyType) (now : Nat) (u : User)
    (hu : getUserByEmail db email = some u)
    (hfresh : ∀ v ∈ db, ∀ k, v.keyField ty = some k → k.value ≠ key) :
    (storeKey db now email key ty).find?
        (fun x => match x.keyField ty with
                  | some k => k.value == key
                  | none => false) =
      some (u.setKeyField ty (some ⟨key, now + 5 * 60 * 1000⟩)) := by
  induction db with
  | nil => simp [getUserByEmail] at hu
  | cons v vs ih =>
    by_cases hv : v.email == email
    · have hfv : List.find? (fun u : User => u.email == email) (v :: vs) = some v :=
        List.find?_cons_of_pos vs hv
      have huv : v = u := by
        rw [getUserByEmail] at hu
        rw [hfv] at hu
        exact Option.some.inj hu
      subst huv
      simp only [storeKey, updateFirst, hv, if_true]
      rw [List.find?_cons_of_pos]
      simp [keyField_setKeyField]
    · have hvm : (match v.keyField ty with
                  | some k => k.value == key
                  | none => false) = false := by
        cases hk : v.keyField ty with
        | none => rfl
        | some k =>
          simp only [beq_eq_false_iff_ne, ne_eq]
          exact hfresh v (List.mem_cons_self v vs) k hk
      have hfn : List.find? (fun u : User => u.email == email) (v :: vs) =
          List.find? (fun u : User => u.email == email) vs :=
        List.find?_cons_of_neg vs (by simpa using hv)
      have hu' : getUserByEmail vs email = some u := by
        rw [getUserByEmail] at hu
        rw [hfn] at hu
        exact hu
      have hfresh' : ∀ w ∈ vs, ∀ k, w.keyField ty = some k → k.value ≠ key :=
        fun w hw => hfresh w (List.mem_cons_of_mem v hw)
      have hnp : ¬((fun x : User => match x.keyField ty with
                    | some k => k.value == key
                    | none => false) v = true) := by
        simp only [hvm]
        exact Bool.false_ne_true
      have hskip : List.find?
          (fun x : User => match x.keyField ty with
                           | some k => k.value == key
                           | none => false)
          (v :: updateFirst (fun u => u.email == email)
            (fun u => u.setKeyField ty (some ⟨key, now + 5 * 60 * 1000⟩)) vs) =
          List.find?
          (fun x : User => match x.keyField ty with
                           | some k => k.value == key
                           | none => false)
          (updateFirst (fun u => u.email == email)
            (fun u => u.setKeyField ty (some ⟨key, now + 5 * 60 * 1000⟩)) vs) :=
        List.find?_cons_of_neg _ hnp
      simp only [storeKey, updateFirst, hv, if_false, Bool.false_eq_true]
      rw [hskip]
      exact ih hu' hfresh'

/-- C4.  Time-boxed key lifecycle: `storeKey` sets the embedded
`{value, expiry}` object of the requested type on the user matched by email
with expiry exactly `now + 300000` ms, overwriting any prior key of that type;
and a fetch by that (fresh) key value returns the user exactly while the
lookup time is before the expiry, and an absent result from the expiry on,
although the user document with the stale key is still present unchanged. -/
theorem C4_key_lifecycle (db : List User) (now tlook : Nat)
    (email key : String) (ty : KeyType) (u : User)
    (hu : getUserByEmail db email = some u)
    (hfresh : ∀ v ∈ db, ∀ k, v.keyField ty = some k → k.value ≠ key) :
    getUserByEmail (storeKey db now email key ty) email =
      some (u.setKeyField ty (some ⟨key, now + 300000⟩)) ∧
    (tlook < now + 300000 →
      getUserByKey (storeKey db now email key ty) tlook key ty =
        some (u.setKeyField ty (some ⟨key, now + 300000⟩))) ∧
    (now + 300000 ≤ tlook →
      getUserByKey (storeKey db now email key ty) tlook key ty = none ∧
      getUserByEmail (storeKey db now email key ty) email =
        some (u.setKeyField ty (some ⟨key, now + 300000⟩))) := by
  have h300 : now + 5 * 60 * 1000 = now + 300000 := by norm_num
  have hemail : getUserByEmail (storeKey db now email key ty) email =
      some (u.setKeyField ty (some ⟨key, now + 300000⟩)) := by
    unfold getUserByEmail storeKey
    rw [find?_updateFirst _ _ (fun x => by rw [email_setKeyField])]
    unfold getUserByEmail at hu
    rw [hu]
    simp
  have hkey := find?_keyValue_storeKey db email key ty now u hu hfresh
  rw [h300] at hkey
  refine ⟨hemail, ?_, ?_⟩
  · intro hlt
    unfold getUserByKey
    rw [hkey]
    simp [keyField_setKeyField, hlt]
  · intro hge
    refine ⟨?_, hemail⟩
    unfold getUserByKey
    rw [hkey]
    simp only [keyField_setKeyField]
    have : ¬tlook < now + 300000 := by omega
    simp [this]

/-- C4 witness: store a reset key `"K"` at time 1000 for a user that already
held an older reset key (overwritten), fetch it back successfully at time
300999 and unsuccessfully at time 301000, where the stale document is still
found by email. -/
theorem C4_key_lifecycle_witness :
    (getUserByEmail (storeKey [⟨1, "bob", "b@x.com", [], true,
        none, some ⟨"OLD", 50⟩, [], [], []⟩] 1000 "b@x.com" "K" .reset) "b@x.com" =
      some ⟨1, "bob", "b@x.com", [], true, none, some ⟨"K", 301000⟩, [], [], []⟩) ∧
    (getUserByKey (storeKey [⟨1, "bob", "b@x.com", [], true,
        none, some ⟨"OLD", 50⟩, [], [], []⟩] 1000 "b@x.com" "K" .reset) 300999 "K" .reset =
      some ⟨1, "bob", "b@x.com", [], true, none, some ⟨"K", 301000⟩, [], [], []⟩) ∧
    (getUserByKey (storeKey [⟨1, "bob", "b@x.com", [], true,
        none, some ⟨"OLD", 50⟩, [], [], []⟩] 1000 "b@x.com" "K" .reset) 301000 "K" .reset =
      none) := by
  have h := C4_key_lifecycle [⟨1, "bob", "b@x.com", [], true,
      none, some ⟨"OLD", 50⟩, [], [], []⟩] 1000 300999 "b@x.com" "K" .reset
      ⟨1, "bob", "b@x.com", [], true, none, some ⟨"OLD", 50⟩, [], [], []⟩
      (by decide) (by decide)
  have h2 := C4_key_lifecycle [⟨1, "bob", "b@x.com", [], true,
      none, some ⟨"OLD", 50⟩, [], [], []⟩] 1000 301000 "b@x.com" "K" .reset
      ⟨1, "bob", "b@x.com", [], true, none, some ⟨"OLD", 50⟩, [], [], []⟩
      (by decide) (by decide)
  exact ⟨h.1, h.2.1 (by decide), (h2.2.2 (by decide)).1⟩

/-- C5.  Session TTL: `startSession` returns the random key and inserts
`{sessionKey, expiry: creation + 600000 ms, data: {userId}}`; fetching a
session by key returns its `data` while the expiry is in the future and an
absent result once the expiry has elapsed or no session with that key
exists. -/
theorem C5_session_ttl (db : List Session) (now tlook : Nat)
    (userId key : String) (hfresh : ∀ s ∈ db, s.sessionKey ≠ key) :
    (startSession db now userId key).1 = key ∧
    (startSession db now userId key).2 =
      db ++ [⟨key, now + 600000, ⟨some userId, none⟩⟩] ∧
    (tlook < now + 600000 →
      getSession (startSession db now userId key).2 key tlook =
        some ⟨some userId, none⟩) ∧
    (now + 600000 < tlook →
      getSession (startSession db now userId key).2 key tlook = none) ∧
    (∀ k, (∀ s ∈ db, s.sessionKey ≠ k) → getSession db k tlook = none) := by
  have hfind : ((startSession db now userId key).2).find?
      (fun s => s.sessionKey == key) = some ⟨key, now + 600000, ⟨some userId, none⟩⟩ := by
    simp only [startSession]
    rw [List.find?_append]
    have h1 : db.find? (fun s => s.sessionKey == key) = none := by
      rw [List.find?_eq_none]
      intro s hs
      simpa using hfresh s hs
    rw [h1]
    simp
  refine ⟨rfl, by simp [startSession], ?_, ?_, ?_⟩
  · intro hlt
    unfold getSession
    rw [hfind]
    have : ¬(now + 600000 < tlook) := by omega
    simp [this]
  · intro hgt
    unfold getSession
    rw [hfind]
    simp [hgt]
  · intro k hk
    unfold getSession
    have h1 : db.find? (fun s => s.sessionKey == k) = none := by
      rw [List.find?_eq_none]
      intro s hs
      simpa using hk s hs
    rw [h1]

/-- C5 witness: a session for user `"u1"` started at time 0 with key `"sk"`
over a database holding one other session; its data is fetched back at time
599999, and is absent at time 600001 and under an unknown key. -/
theorem C5_session_ttl_witness :
    (startSession [⟨"other", 5, ⟨some "u0", none⟩⟩] 0 "u1" "sk").1 = "sk" ∧
    (startSession [⟨"other", 5, ⟨some "u0", none⟩⟩] 0 "u1" "sk").2 =
      [⟨"other", 5, ⟨some "u0", none⟩⟩, ⟨"sk", 600000, ⟨some "u1", none⟩⟩] ∧
    getSession (startSession [⟨"other", 5, ⟨some "u0", none⟩⟩] 0 "u1" "sk").2
      "sk" 599999 = some ⟨some "u1", none⟩ ∧
    getSession (startSession [⟨"other", 5, ⟨some "u0", none⟩⟩] 0 "u1" "sk").2
      "sk" 600001 = none ∧
    getSession [⟨"other", 5, ⟨some "u0", none⟩⟩] "nokey" 600001 = none := by
  have h599 := C5_session_ttl [⟨"other", 5, ⟨some "u0", none⟩⟩] 0 599999 "u1" "sk"
    (by decide)
  have h601 := C5_session_ttl [⟨"other", 5, ⟨some "u0", none⟩⟩] 0 600001 "u1" "sk"
    (by decide)
  exact ⟨h599.1, h599.2.1, h599.2.2.1 (by decide), h601.2.2.2.1 (by decide),
    h601.2.2.2.2 "nokey" (by decide)⟩

/-- C6 counterexample.  The password `"Abcdefg1!\n"`
(`[65,98,99,100,101,102,103,49,33,10]`) has 10 characters, a digit (`1`), a
special character (`!`), an uppercase and a lowercase letter — all five
conditions of the claim — yet `validatePassword` rejects it: the length test
`/^.{8,}$/` cannot match across the newline.  So "accepts if and only if the
five conditions hold" is false as stated. -/
theorem C6_password_strength_counterexample :
    validatePassword [65, 98, 99, 100, 101, 102, 103, 49, 33, 10] = false ∧
    8 ≤ [65, 98, 99, 100, 101, 102, 103, 49, 33, 10].length ∧
    [65, 98, 99, 100, 101, 102, 103, 49, 33, 10].any isDigitChar = true ∧
    [65, 98, 99, 100, 101, 102, 103, 49, 33, 10].any isSpecialChar = true ∧
    [65, 98, 99, 100, 101, 102, 103, 49, 33, 10].any isUpperChar = true ∧
    [65, 98, 99, 100, 101, 102, 103, 49, 33, 10].any isLowerChar = true := by
  decide

/-- C6 (amended).  `validatePassword` accepts exactly the passwords with at
least 8 characters, none of which is a line terminator (`\n`, `\r`, U+2028,
U+2029 — which JS `.` in `/^.{8,}$/` cannot match), containing at least one
digit, one special character of the set, one uppercase and one lowercase
letter; in particular `"abcdefg1!"` and `"ABCDEFGH"` are rejected and
`"Abcdefg1!"` is accepted. -/
theorem C6_password_strength_amended (p : List Nat) :
    (validatePassword p = true ↔
      (8 ≤ p.length ∧ (∀ c ∈ p, isLineTerminator c = false) ∧
       (∃ c ∈ p, isDigitChar c = true) ∧ (∃ c ∈ p, isSpecialChar c = true) ∧
       (∃ c ∈ p, isUpperChar c = true) ∧ (∃ c ∈ p, isLowerChar c = true))) ∧
    validatePassword [97, 98, 99, 100, 101, 102, 103, 49, 33] = false ∧
    validatePassword [65, 98, 99, 100, 101, 102, 103, 49, 33] = true ∧
    validatePassword [65, 66, 67, 68, 69, 70, 71, 72] = false := by
  refine ⟨?_, by decide, by decide, by decide⟩
  simp only [validatePassword, lengthRegexTest, Bool.and_eq_true,
    List.all_eq_true, List.any_eq_true, decide_eq_true_eq,
    Bool.not_eq_true']
  tauto

/-- C7.  Password-reset completion checks its failure conditions in order —
weak password, then trimmed mismatch, then unresolved reset key — returning
the corresponding message with the user database untouched, and only when all
three pass does it store the new salted hash and clear the reset key on the
user resolved by the key. -/
theorem C7_reset_password (db : List User) (now : Nat) (saltBytes : List Nat)
    (rk : String) (np cp : List Nat) :
    (validatePassword np = false →
      resetPassword db now saltBytes rk np cp =
        (⟨false, some weakPasswordMsg⟩, db)) ∧
    (validatePassword np = true → trim np ≠ trim cp →
      resetPassword db now saltBytes rk np cp =
        (⟨false, some passwordMismatchMsg⟩, db)) ∧
    (validatePassword np = true → trim np = trim cp →
      getUserByKey db now rk .reset = none →
      resetPassword db now saltBytes rk np cp =
        (⟨false, some invalidResetKeyMsg⟩, db)) ∧
    (∀ u, validatePassword np = true → trim np = trim cp →
      getUserByKey db now rk .reset = some u →
      (resetPassword db now saltBytes rk np cp).1 = ⟨true, none⟩ ∧
      (resetPassword db now saltBytes rk np cp).2 =
        clearKey (updatePassword db u.email (createSaltedHash saltBytes np))
          u.email .reset) := by
  refine ⟨?_, ?_, ?_, ?_⟩
  · intro h1
    simp [resetPassword, h1]
  · intro h1 h2
    simp [resetPassword, h1, h2]
  · intro h1 h2 h3
    simp [resetPassword, h1, h2, h3]
  · intro u h1 h2 h3
    constructor <;> simp [resetPassword, h1, h2, h3]

/-- C7 witness: the four branches at time 0 over the one-user database —
a weak new password, a trimmed mismatch, an unknown reset key, and the
successful reset with password `"Abcdefg1!"` and salt `09090909`. -/
theorem C7_reset_password_witness :
    resetPassword [resetWitnessUser] 0 [9, 9, 9, 9] "RK" [97] [97] =
      (⟨false, some weakPasswordMsg⟩, [resetWitnessUser]) ∧
    resetPassword [resetWitnessUser] 0 [9, 9, 9, 9] "RK"
        [65, 98, 99, 100, 101, 102, 103, 49, 33] [98] =
      (⟨false, some passwordMismatchMsg⟩, [resetWitnessUser]) ∧
    resetPassword [resetWitnessUser] 0 [9, 9, 9, 9] "BAD"
        [65, 98, 99, 100, 101, 102, 103, 49, 33]
        [65, 98, 99, 100, 101, 102, 103, 49, 33] =
      (⟨false, some invalidResetKeyMsg⟩, [resetWitnessUser]) ∧
    (resetPassword [resetWitnessUser] 0 [9, 9, 9, 9] "RK"
        [65, 98, 99, 100, 101, 102, 103, 49, 33]
        [65, 98, 99, 100, 101, 102, 103, 49, 33]).1 = ⟨true, none⟩ ∧
    (resetPassword [resetWitnessUser] 0 [9, 9, 9, 9] "RK"
        [65, 98, 99, 100, 101, 102, 103, 49, 33]
        [65, 98, 99, 100, 101, 102, 103, 49, 33]).2 =
      clearKey (updatePassword [resetWitnessUser] "c@x.com"
        (createSaltedHash [9, 9, 9, 9] [65, 98, 99, 100, 101, 102, 103, 49, 33]))
        "c@x.com" .reset := by
  have hok := (C7_reset_password [resetWitnessUser] 0 [9, 9, 9, 9] "RK"
    [65, 98, 99, 100, 101, 102, 103, 49, 33]
    [65, 98, 99, 100, 101, 102, 103, 49, 33]).2.2.2 resetWitnessUser
    (by decide) (by decide) (by decide)
  refine ⟨(C7_reset_password [resetWitnessUser] 0 [9, 9, 9, 9] "RK" [97] [97]).1
      (by decide),
    (C7_reset_password [resetWitnessUser] 0 [9, 9, 9, 9] "RK"
      [65, 98, 99, 100, 101, 102, 103, 49, 33] [98]).2.1 (by decide) (by decide),
    (C7_reset_password [resetWitnessUser] 0 [9, 9, 9, 9] "BAD"
      [65, 98, 99, 100, 101, 102, 103, 49, 33]
      [65, 98, 99, 100, 101, 102, 103, 49, 33]).2.2.1 (by decide) (by decide)
      (by decide),
    hok.1, hok.2⟩

/-! ## Lemmas about the badge-award loop -/

theorem countName_append_single (ub : List AwardedBadge) (x : AwardedBadge)
    (name : String) :
    countName (ub ++ [x]) name =
      countName ub name + (if x.name == name then 1 else 0) := by
  simp only [countName, List.filter_append]
  by_cases hx : x.name == name <;> simp [hx]

theorem countName_eq_zero_of_any_false {ub : List AwardedBadge} {name : String}
    (h : ub.any (fun b => b.name == name) = false) : countName ub name = 0 := by
  simp only [countName, List.length_eq_zero]
  rw [List.filter_eq_nil_iff]
  intro b hb
  simp only [List.any_eq_false] at h
  simp [h b hb]

theorem any_name_append_single (ub : List AwardedBadge) (x : AwardedBadge)
    (name : String) (h : ub.any (fun b => b.name == name) = true) :
    (ub ++ [x]).any (fun b => b.name == name) = true := by
  simp only [List.any_append, h, Bool.true_or]

theorem awardLoop_count_held (elig : String → Bool) (ts : Nat) (name : String) :
    ∀ (bs : List Badge) (ub : List AwardedBadge),
      ub.any (fun b => b.name == name) = true →
      countName (awardLoop elig ts bs ub) name = countName ub name := by
  intro bs
  induction bs with
  | nil => intro ub _; rfl
  | cons b rest ih =>
    intro ub hheld
    by_cases hb : ub.any (fun x => x.name == b.name)
    · simpa [awardLoop, hb] using ih ub hheld
    · by_cases he : elig b.name
      · have hbn : ¬(b.name == name) = true := by
          intro hbe
          have : (fun x : AwardedBadge => x.name == name) =
              (fun x : AwardedBadge => x.name == b.name) := by
            funext x
            rw [show b.name = name from by simpa using hbe]
          rw [this] at hheld
          exact absurd hheld (by simp [hb])
        have happ := any_name_append_single ub ⟨b.name, b.imageUrl, ts⟩ name hheld
        simp only [awardLoop, hb, Bool.false_eq_true, if_false, he, if_true]
        rw [ih _ happ, countName_append_single]
        simp [hbn]
      · simpa [awardLoop, hb, he] using ih ub hheld

theorem awardLoop_count_le (elig : String → Bool) (ts : Nat) (name : String) :
    ∀ (bs : List Badge) (ub : List AwardedBadge),
      countName (awardLoop elig ts bs ub) name ≤ max (countName ub name) 1 := by
  intro bs
  induction bs with
  | nil => intro ub; simp [awardLoop, le_max_left]
  | cons b rest ih =>
    intro ub
    by_cases hb : ub.any (fun x => x.name == b.name)
    · simpa [awardLoop, hb] using ih ub
    · by_cases he : elig b.name
      · simp only [awardLoop, hb, Bool.false_eq_true, if_false, he, if_true]
        refine le_trans (ih (ub ++ [⟨b.name, b.imageUrl, ts⟩])) ?_
        rw [countName_append_single]
        by_cases hbn : (b.name == name) = true
        · have hz : countName ub name = 0 := by
            have : (fun x : AwardedBadge => x.name == name) =
                (fun x : AwardedBadge => x.name == b.name) := by
              funext x
              rw [show b.name = name from by simpa using hbn]
            refine countName_eq_zero_of_any_false ?_
            rw [this]
            simpa using hb
          simp [hz, hbn]
        · simp only [hbn, Bool.false_eq_true, if_false, Nat.add_zero, le_refl]
      · simpa [awardLoop, hb, he] using ih ub

/-- C8.  Badge non-duplication: in one `awardBadge` pass, a badge name the
user already holds is skipped (the count of badges with that name is
unchanged), and for every name the pass never results in two badges of the
same name unless duplicates pre-existed (the resulting count is at most the
maximum of the initial count and 1). -/
theorem C8_badge_non_duplication (msgs : List Msg) (allBadges : List Badge)
    (ts senderId receiverId : Nat) (badges0 : List AwardedBadge)
    (name : String) :
    (badges0.any (fun b => b.name == name) = true →
      countName (awardBadge msgs allBadges ts senderId receiverId badges0) name =
        countName badges0 name) ∧
    countName (awardBadge msgs allBadges ts senderId receiverId badges0) name ≤
      max (countName badges0 name) 1 :=
  ⟨fun h => awardLoop_count_held _ ts name allBadges badges0 h,
   awardLoop_count_le _ ts name allBadges badges0⟩

/-- C8 witness: user 1 already holds "First Conversation" (awarded at time 5)
and its conversation with user 2 contains a direct reply, so the rule fires
again — yet the pass over the seeded catalog leaves exactly one badge of that
name. -/
theorem C8_badge_non_duplication_witness :
    countName (awardBadge
      [⟨1, 2, "hi", 10⟩, ⟨2, 1, "yo", 20⟩] seededCatalog 30 1 2
      [⟨"First Conversation", "/images/badges/firstConversation.png", 5⟩])
      "First Conversation" =
      countName [⟨"First Conversation", "/images/badges/firstConversation.png", 5⟩]
        "First Conversation" ∧
    countName (awardBadge
      [⟨1, 2, "hi", 10⟩, ⟨2, 1, "yo", 20⟩] seededCatalog 30 1 2
      [⟨"First Conversation", "/images/badges/firstConversation.png", 5⟩])
      "First Conversation" ≤
      max (countName
        [⟨"First Conversation", "/images/badges/firstConversation.png", 5⟩]
        "First Conversation") 1 := by
  have h := C8_badge_non_duplication [⟨1, 2, "hi", 10⟩, ⟨2, 1, "yo", 20⟩]
    seededCatalog 30 1 2
    [⟨"First Conversation", "/images/badges/firstConversation.png", 5⟩]
    "First Conversation"
  exact ⟨h.1 (by decide), h.2⟩

/-- C3 counterexample.  Stored conversation: user 1 → user 2 at time 10,
user 2 → user 1 at time 20 (a single reply).  The route's dual award after
user 2's reply runs `awardBadge(2, 1)` then `awardBadge(1, 2)` over the
seeded catalog: user 1 ends up holding "First Conversation" but user 2's
badge list stays empty, because `hasReceivedReply(2, 1)` demands a message
from 2 immediately followed by a reply from 1 and finds none.  This refutes
"A holds the badge and B holds it too". -/
theorem C3_first_conversation_counterexample :
    hasReceivedReply [⟨1, 2, "hi", 10⟩, ⟨2, 1, "yo", 20⟩] 1 2 = true ∧
    hasReceivedReply [⟨1, 2, "hi", 10⟩, ⟨2, 1, "yo", 20⟩] 2 1 = false ∧
    (dualAward [⟨1, 2, "hi", 10⟩, ⟨2, 1, "yo", 20⟩] seededCatalog 30 2 1
      [] []).2 =
      [⟨"First Conversation", "/images/badges/firstConversation.png", 30⟩] ∧
    (dualAward [⟨1, 2, "hi", 10⟩, ⟨2, 1, "yo", 20⟩] seededCatalog 30 2 1
      [] []).1 = [] := by
  decide

/-- C3 (amended).  For a stored conversation consisting of A → B at `t1`
followed by B → A at `t2 > t1`, after the route's dual badge-award pass the
first mover A holds "First Conversation" but the replier B does not:
`hasReceivedReply` is direction-sensitive, so the single reply counts only
for the participant who sent the earlier message of the adjacent pair. -/
theorem C3_first_conversation_amended (a b t1 t2 ts : Nat) (m1 m2 : String)
    (hab : a ≠ b) (ht : t1 < t2) :
    (awardBadge [⟨a, b, m1, t1⟩, ⟨b, a, m2, t2⟩] seededCatalog ts a b []).any
      (fun x => x.name == "First Conversation") = true ∧
    (awardBadge [⟨a, b, m1, t1⟩, ⟨b, a, m2, t2⟩] seededCatalog ts b a []).any
      (fun x => x.name == "First Conversation") = false := by
  have hab' : (a == b) = false := by simp [hab]
  have hba' : (b == a) = false := by simp [Ne.symm hab]
  have hconv_ab : getConversation [⟨a, b, m1, t1⟩, ⟨b, a, m2, t2⟩] a b =
      [⟨a, b, m1, t1⟩, ⟨b, a, m2, t2⟩] := by
    simp [getConversation, sortByTime, insertByTime, ht.le]
  have hconv_ba : getConversation [⟨a, b, m1, t1⟩, ⟨b, a, m2, t2⟩] b a =
      [⟨a, b, m1, t1⟩, ⟨b, a, m2, t2⟩] := by
    simp [getConversation, sortByTime, insertByTime, ht.le]
  have hreply_ab : hasReceivedReply [⟨a, b, m1, t1⟩, ⟨b, a, m2, t2⟩] a b = true := by
    rw [hasReceivedReply, hconv_ab]
    simp [hasReplyScan]
  have hreply_ba : hasReceivedReply [⟨a, b, m1, t1⟩, ⟨b, a, m2, t2⟩] b a = false := by
    rw [hasReceivedReply, hconv_ba]
    simp [hasReplyScan, hab', hba']
  constructor
  · simp [awardBadge, awardLoop, seededCatalog, badgeRule, hreply_ab,
      getUserMessages, hab', hba']
  · simp [awardBadge, awardLoop, seededCatalog, badgeRule, hreply_ba,
      getUserMessages, hab', hba']

/-- C3 amended-claim witness: the concrete scenario at users 1 and 2, times
10 and 20, award timestamp 30. -/
theorem C3_first_conversation_amended_witness :
    (awardBadge [⟨1, 2, "hi", 10⟩, ⟨2, 1, "yo", 20⟩] seededCatalog 30 1 2 []).any
      (fun x => x.name == "First Conversation") = true ∧
    (awardBadge [⟨1, 2, "hi", 10⟩, ⟨2, 1, "yo", 20⟩] seededCatalog 30 2 1 []).any
      (fun x => x.name == "First Conversation") = false :=
  C3_first_conversation_amended 1 2 10 20 30 "hi" "yo" (by decide) (by decide)

/-- C9.  Block precedence on contact addition: whenever the prospective
contact's document lists the requesting user's id in `blockedContacts`, the
checked add rejects with the `BlockedByTarget` condition and returns the
database unchanged — no change to the requester's contacts, whatever their
prior state. -/
theorem C9_block_precedence (db : List User) (userId contactId : Nat)
    (target : User)
    (hfind : db.find? (fun u => u.id == contactId) = some target)
    (hblock : userId ∈ target.blockedContacts) :
    addContactChecked db userId contactId = (some "BlockedByTarget", db) := by
  simp [addContactChecked, hfind, hblock]

/-- C9 witness: user 3 has blocked user 5, who already holds contact 9; user
5's attempt to add user 3 is rejected and the database (including user 5's
contact list) is unchanged. -/
theorem C9_block_precedence_witness :
    addContactChecked
      [⟨5, "eve", "e@x.com", [], true, none, none, [9], [], []⟩,
       ⟨3, "dave", "d@x.com", [], true, none, none, [], [5], []⟩] 5 3 =
      (some "BlockedByTarget",
       [⟨5, "eve", "e@x.com", [], true, none, none, [9], [], []⟩,
        ⟨3, "dave", "d@x.com", [], true, none, none, [], [5], []⟩]) :=
  C9_block_precedence
    [⟨5, "eve", "e@x.com", [], true, none, none, [9], [], []⟩,
     ⟨3, "dave", "d@x.com", [], true, none, none, [], [5], []⟩] 5 3
    ⟨3, "dave", "d@x.com", [], true, none, none, [], [5], []⟩
    (by decide) (by decide)

/-- C10.  Evaluated at a live session `{sessionKey "k", expiry 1000, data
{userId "u"}}` at time 0: `generateFormToken` persists the session with the
original `userId` kept and `csrfToken` added (the claim's first half holds),
but `cancelToken` on `{userId "u", csrfToken "tok"}` leaves the stored
session completely unchanged — the `csrfToken` survives, because
`updateSession`'s spread-merge `{...old, ...new}` reinstates the field the
business layer deleted.  The claim's "cancelToken removes only the csrfToken
field" is what the code documents but not what it does. -/
theorem C10_csrf_token_session_state :
    generateFormToken [⟨"k", 1000, ⟨some "u", none⟩⟩] "k" 0 "tok" =
      (some "tok", [⟨"k", 1000, ⟨some "u", some "tok"⟩⟩]) ∧
    cancelToken [⟨"k", 1000, ⟨some "u", some "tok"⟩⟩] "k" 0 =
      [⟨"k", 1000, ⟨some "u", some "tok"⟩⟩] := by
  decide

end GlobeLingo
